import Mathlib

/-!
Shallow embedding of the mail-composition engine in `mailer.py` and proofs
about its behaviour.  Python strings are modelled as Lean `String` (or
`List Char` where character-level splitting matters), byte strings as
`List Nat`, and `None` as `Option.none`.  A Python function that can raise
is embedded as a function into `Except SendError _`; `MailerException`
values are the typed composition errors, while `TypeError` / `ValueError`
raised by the runtime are the untyped errors.
-/

set_option autoImplicit false

namespace MailerPy

/-- Typed composition failures: each constructor corresponds to one of the
`MailerException` raise sites in `Mailer.send` / `Mailer._convert_names`. -/
inductive MailerError where
  /-- "'data' entry in attachment i has to be of type 'str' or 'bytes'" and
  "inlines[i]: 'data' has to be of type 'bytes'." -/
  | invalidContentType
  /-- "File in attachment i does not exist" -/
  | fileNotFound
  /-- "Could not download URL ..." -/
  | downloadError
  /-- "The 'cid' value must conform to RFC 2822's msg-id grammar" and the
  missing-cid raise "For inline elements you need to specify 'cid'." -/
  | invalidContentId
  /-- "Inline elements without a text or html representation does not make sense." -/
  | danglingInline
  /-- "There is not data to sent." -/
  | emptyMessage
  /-- "No recipients defined. to, cc and bcc are empty." -/
  | noRecipients
  /-- "Can not derive mail address from from_addr=..." -/
  | badFromAddr
  /-- "Argument has to be a of type 'list', 'tuple' or 'set'." and the
  bad-attachment-shape raises. -/
  | badArgument
  deriving DecidableEq, Repr

/-- Any failure surfacing from `Mailer.send`: either a typed
`MailerException` or an untyped runtime error (`TypeError`, `ValueError`). -/
inductive SendError where
  | mailer (e : MailerError)
  | typeError
  | valueError
  deriving DecidableEq, Repr

/-- Python `str.split(sep)` for a one-character separator and no maxsplit:
splits at every occurrence of `sep`, keeping empty pieces. -/
def pySplitChar (sep : Char) : List Char → List (List Char)
  | [] => [[]]
  | c :: rest =>
    match pySplitChar sep rest with
    | [] => [[]]
    | h :: t => if c = sep then [] :: h :: t else (c :: h) :: t

/-- Python `str.split(sep, 1)`: splits at the first occurrence of `sep`
only, the remainder staying one piece. -/
def pySplit1Char (sep : Char) : List Char → List (List Char)
  | [] => [[]]
  | c :: rest =>
    if c = sep then [[], rest]
    else
      match pySplit1Char sep rest with
      | [] => [[c]]
      | h :: t => (c :: h) :: t

/-- UTF-8 encoding of a single code point as byte values (RFC 3629). -/
def utf8Char (c : Char) : List Nat :=
  let n := c.toNat
  if n < 0x80 then [n]
  else if n < 0x800 then [0xC0 + n / 0x40, 0x80 + n % 0x40]
  else if n < 0x10000 then [0xE0 + n / 0x1000, 0x80 + (n / 0x40) % 0x40, 0x80 + n % 0x40]
  else [0xF0 + n / 0x40000, 0x80 + (n / 0x1000) % 0x40, 0x80 + (n / 0x40) % 0x40, 0x80 + n % 0x40]

/-- Python `s.encode('utf-8')`: the byte string of the UTF-8 encoding. -/
def utf8Encode (s : String) : List Nat := s.data.flatMap utf8Char

/-- Base64 alphabet, used by the RFC 2047 header-encoding model. -/
def base64Alphabet : List Char :=
  "ABCDEFGHIJKLMNOPQRSTUVWXYZabcdefghijklmnopqrstuvwxyz0123456789+/".data

/-- Character of the base64 alphabet at a 6-bit index. -/
def b64c (n : Nat) : Char := base64Alphabet.getD n 'A'

/-- Base64 rendering of a byte string, with `=` padding. -/
def base64 : List Nat → List Char
  | [] => []
  | [b1] => [b64c (b1 / 4), b64c (b1 % 4 * 16), '=', '=']
  | [b1, b2] => [b64c (b1 / 4), b64c (b1 % 4 * 16 + b2 / 16), b64c (b2 % 16 * 4), '=']
  | b1 :: b2 :: b3 :: rest =>
      b64c (b1 / 4) :: b64c (b1 % 4 * 16 + b2 / 16) ::
      b64c (b2 % 16 * 4 + b3 / 64) :: b64c (b3 % 64) :: base64 rest

/-- Modelled from the spec: RFC 2047-style UTF-8 header encoding of a
display name (`Charset('utf-8').header_encode` from the standard library,
outside src/), in its base64 form. -/
def header_encode (s : String) : String :=
  "=?utf-8?b?" ++ String.mk (base64 (utf8Encode s)) ++ "?="

/-- Drop of leading and trailing spaces of a character list. -/
def trimSpaces (l : List Char) : List Char :=
  ((l.dropWhile (· = ' ')).reverse.dropWhile (· = ' ')).reverse

/-- Modelled from the spec: the standard-library address parser
`email.utils.parseaddr` (outside src/), restricted per §4.1 to the two
accepted shapes "Name <addr>" and a bare address.  Returns the pair
(display-name, address), with empty strings when a component is absent,
as `parseaddr` does. -/
def parseaddrModel (s : String) : String × String :=
  let cs := s.data
  if '<' ∈ cs then
    (String.mk (trimSpaces (cs.takeWhile (· ≠ '<'))),
     String.mk (((cs.dropWhile (· ≠ '<')).drop 1).takeWhile (· ≠ '>')))
  else (String.mk [], String.mk (trimSpaces cs))

/-- Python `a or b` over optional strings: `None` and the empty string are
falsy, and the last operand is returned when no operand is truthy. -/
def pyOr (a b : Option String) : Option String :=
  match a with
  | some s => if s = "" then b else some s
  | none => b

/-- Caller-side shapes accepted for a single address-like input: a
formatted string, a mapping with optional name-like and mail-like keys,
or any other object (for which `_extract` finds nothing). -/
inductive AddrInput where
  | strI (s : String)
  | dictI (fullname name id mail email e_mail mailaddress : Option String)
  | otherI (tag : String)
  deriving DecidableEq

/-- State of a `MailAddress` after `_extract`: the `_name` and `_address`
attributes, which stay `None` for unrecognized inputs. -/
structure MailAddress where
  name : Option String
  address : Option String
  deriving DecidableEq

/-- Embedding of `MailAddress._extract` (mailer.py lines 89-97): a string
goes through `parseaddr`; a mapping takes the first truthy of
fullname/name/id as name and parses the first truthy of
mail/email/e-mail/mailaddress (parseaddr of `None` yields an empty
address); any other object leaves both attributes `None`. -/
def extract : AddrInput → MailAddress
  | .strI s => ⟨some (parseaddrModel s).1, some (parseaddrModel s).2⟩
  | .dictI fullname name id mail email e_mail mailaddress =>
      ⟨pyOr fullname (pyOr name id),
       some (parseaddrModel ((pyOr mail (pyOr email (pyOr e_mail mailaddress))).getD "")).2⟩
  | .otherI _ => ⟨none, none⟩

/-- Embedding of `MailAddress.is_valid` (lines 99-100): Python truthiness
of the extracted `_address`. -/
def MailAddress.is_valid (m : MailAddress) : Bool :=
  match m.address with
  | some a => a ≠ ""
  | none => false

/-- Embedding of `MailAddress.__str__` (lines 102-110): empty without an
address; with a truthy display name, the header-encoded name followed by
the angle-bracketed address; else the bare address. -/
def MailAddress.str (m : MailAddress) : String :=
  match m.address with
  | none => ""
  | some a =>
    if a = "" then ""
    else
      match m.name with
      | some n => if n = "" then a else header_encode n ++ " <" ++ a ++ ">"
      | none => a

/-- Embedding of the item loop of `Mailer._convert_names` (lines 241-248):
items whose extraction is invalid are logged and skipped, the valid ones
serialized in their original order. -/
def convertNamesLoop : List AddrInput → List String
  | [] => []
  | n :: rest =>
    let ma := extract n
    if ma.is_valid then ma.str :: convertNamesLoop rest
    else convertNamesLoop rest

/-- Shapes the `names` argument of `_convert_names` may take at runtime. -/
inductive NamesArg where
  | noneA
  | strA (s : String)
  | listA (l : List AddrInput)
  | otherA (tag : String)

/-- Embedding of `Mailer._convert_names` (lines 232-249): a bare string is
deprecated but wrapped into a one-element list, `None` passes through,
a non-collection argument raises, and every remaining item goes through
the skip-invalid loop. -/
def convert_names : NamesArg → Except SendError (Option (List String))
  | .strA s => .ok (some (convertNamesLoop [.strI s]))
  | .noneA => .ok none
  | .listA l => .ok (some (convertNamesLoop l))
  | .otherA _ => .error (.mailer .badArgument)

/-- MIME tree skeleton of a composed message: leaves are built content
parts (abstract here), `multipart s children` is `MIMEMultipart(s)` with
the children attached in order. -/
inductive MimeTree (α : Type) where
  | leaf (part : α)
  | multipart (subtype : String) (children : List (MimeTree α))

/-- Embedding of mailer.py lines 556-566: plaintext and html are wrapped
in multipart/alternative when both are present (plaintext attached first),
else the body is whichever single part is present, else `None`. -/
def composeBody {α : Type} (plaintext_part html_part : Option α) : Option (MimeTree α) :=
  match html_part, plaintext_part with
  | some h, some p => some (.multipart "alternative" [.leaf p, .leaf h])
  | some h, none => some (.leaf h)
  | none, some p => some (.leaf p)
  | none, none => none

/-- Embedding of lines 568-579: inline parts force multipart/related with
the body attached first; inline parts with no body raise the
DanglingInline error. -/
def composeContent {α : Type} (body : Option (MimeTree α)) (inline_parts : List α) :
    Except SendError (Option (MimeTree α)) :=
  match inline_parts with
  | [] => .ok body
  | _ :: _ =>
    match body with
    | none => .error (.mailer .danglingInline)
    | some b => .ok (some (.multipart "related" (b :: inline_parts.map .leaf)))

/-- Embedding of lines 581-589: attachments force multipart/mixed with the
content (when present) attached first, then the attachments in order. -/
def composeMessage {α : Type} (content : Option (MimeTree α)) (attachment_parts : List α) :
    Option (MimeTree α) :=
  match attachment_parts with
  | [] => content
  | _ :: _ =>
    some (.multipart "mixed"
      ((match content with | some c => [c] | none => []) ++ attachment_parts.map .leaf))

/-- Composition of the full tree, lines 556-589 in sequence. -/
def composeTree {α : Type} (plaintext_part html_part : Option α)
    (inline_parts attachment_parts : List α) : Except SendError (Option (MimeTree α)) :=
  match composeContent (composeBody plaintext_part html_part) inline_parts with
  | .error e => .error e
  | .ok content => .ok (composeMessage content attachment_parts)

/-- Embedding of the computed header assembly (lines 594-607): each
`message[k] = v` appends the pair (k, v) to the message's header list;
To/Cc/Bcc are set only when their list is non-empty, Reply-To only when
one resolved, then From and Subject. -/
def computedHeaders (to_ cc bcc : List String) (reply_to : Option String)
    (from_addr subject : String) : List (String × String) :=
  (match to_ with | [] => [] | _ :: _ => [("To", String.intercalate "," to_)]) ++
  (match cc with | [] => [] | _ :: _ => [("Cc", String.intercalate "," cc)]) ++
  (match bcc with | [] => [] | _ :: _ => [("Bcc", String.intercalate "," bcc)]) ++
  (match reply_to with | some r => [("Reply-To", r)] | none => []) ++
  [("From", from_addr), ("Subject", subject)]

/-- Everything a successful composition hands to the transport: the MIME
tree, the ordered header pairs of the message, and the recipient list
passed to `sendmail`. -/
structure Outgoing (α : Type) where
  tree : MimeTree α
  headers : List (String × String)
  recipients : List String

/-- Embedding of the composition stage of `Mailer.send` (lines 556-616)
over already-resolved parts and address strings: build the tree (the
EmptyMessage error when nothing at all is present), assemble the headers
— caller-supplied pairs are appended after the computed ones, because
`message[k] = v` on an email Message never overwrites — and check
NoRecipients last.  An `.error` result models an exception raised before
`self._conn.sendmail`, so nothing is handed to the transport. -/
def sendCompose {α : Type} (to_ cc bcc : List String) (reply_to : Option String)
    (from_addr subject : String) (plaintext_part html_part : Option α)
    (inline_parts attachment_parts : List α)
    (header : List (String × String)) : Except SendError (Outgoing α) :=
  match composeTree plaintext_part html_part inline_parts attachment_parts with
  | .error e => .error e
  | .ok none => .error (.mailer .emptyMessage)
  | .ok (some t) =>
    match to_ ++ cc ++ bcc with
    | [] => .error (.mailer .noRecipients)
    | r :: rs =>
      .ok ⟨t, computedHeaders to_ cc bcc reply_to from_addr subject ++ header, r :: rs⟩

/-- Embedding of the From derivation (lines 330-340): with `from_addr`
absent the login user is consulted — the membership test
`'@' in self._user` raises an untyped TypeError when `login` was never
called and `_user` is still `None`, and otherwise joins the user with the
host when the user string lacks an `@`; an explicit `from_addr` must
resolve to a valid address or a typed MailerException is raised. -/
def deriveFromAddr (from_addr : Option AddrInput) (user : Option String) (host : String) :
    Except SendError String :=
  match from_addr with
  | none =>
    match user with
    | none => .error .typeError
    | some u => if '@' ∈ u.data then .ok u else .ok (u ++ "@" ++ host)
  | some fa =>
    let ma := extract fa
    if ma.is_valid then .ok ma.str else .error (.mailer .badFromAddr)

/-- Possible runtime shapes of a `data` payload of an attachment or
inline mapping. -/
inductive PyData where
  | str (s : String)
  | bytes (b : List Nat)
  | other (tag : String)
  deriving DecidableEq

/-- Embedding of lines 395-406 (attachment `data` variant): a text payload
is first encoded to UTF-8; after that only byte payloads build a part and
anything else raises the typed invalid-content error. -/
def resolveAttachmentData : PyData → Except SendError (List Nat)
  | .str s => .ok (utf8Encode s)
  | .bytes b => .ok b
  | .other _ => .error (.mailer .invalidContentType)

/-- Embedding of lines 481-485 (inline `data` variant): only byte payloads
are accepted; everything else — text included — raises. -/
def resolveInlineData : PyData → Except SendError (List Nat)
  | .bytes b => .ok b
  | _ => .error (.mailer .invalidContentType)

/-- Embedding of the two-target unpacking
`maintype, subtype = t.split('/')` guarded by
`t is not None and '/' in t` (attachment variants: lines 390-393 for
data, 414-417 for file, 437-440 for url): a split that does not yield
exactly two pieces makes the unpacking raise an untyped ValueError. -/
def attachTypeSplit (t : Option (List Char)) : Except SendError (List Char × List Char) :=
  match t with
  | none => .ok ("application".data, "octet-stream".data)
  | some tc =>
    if '/' ∈ tc then
      match pySplitChar '/' tc with
      | [m, s] => .ok (m, s)
      | _ => .error .valueError
    else .ok ("application".data, "octet-stream".data)

/-- Embedding of the inline file variant (lines 505-509), which instead
unpacks `i_type.split('/', 1)` under the same guard. -/
def inlineFileTypeSplit (t : Option (List Char)) : Except SendError (List Char × List Char) :=
  match t with
  | none => .ok ("application".data, "octet-stream".data)
  | some tc =>
    if '/' ∈ tc then
      match pySplit1Char '/' tc with
      | [m, s] => .ok (m, s)
      | _ => .error .valueError
    else .ok ("application".data, "octet-stream".data)

/-- Embedding of lines 436-440: the type string of a url-sourced
attachment is the caller-supplied `type` entry when that key is present,
else the response-declared content type; the attachment name is never
consulted. -/
def urlAttachmentType (callerType : Option (List Char)) (respType : List Char) :
    Except SendError (List Char × List Char) :=
  attachTypeSplit (some (callerType.getD respType))

/-- Modelled from the spec: the §4.2 type-inference precedence claimed for
a RemoteRef attachment — explicit caller-supplied type, then a type
guessed from the name/extension (`guess`), then the response-declared
content type, then the default — stated as a definition to compare with
`urlAttachmentType` above. -/
def urlAttachmentTypeSpec (guess : List Char → Option (List Char))
    (callerType : Option (List Char)) (name : List Char) (respType : List Char) :
    Except SendError (List Char × List Char) :=
  attachTypeSplit (some ((callerType.orElse (fun _ => guess name)).getD respType))

/-- Embedding of lines 470-477: an inline element must carry a 'cid' key
whose value contains an `@`, else the typed InvalidContentId error is
raised. -/
def inlineCid (cid : Option String) : Except SendError String :=
  match cid with
  | none => .error (.mailer .invalidContentId)
  | some c => if '@' ∈ c.data then .ok c else .error (.mailer .invalidContentId)

/-- Embedding of lines 551-552: once an inline part is built, `add_header`
appends Content-ID — the supplied cid enclosed in angle brackets, with no
other change — and then Content-Disposition: inline. -/
def addInlineHeaders (part_headers : List (String × String)) (c : String) :
    List (String × String) :=
  part_headers ++ [("Content-ID", "<" ++ c ++ ">"), ("Content-Disposition", "inline")]

/-! Helper lemmas about the embedded string splitting and the recipient
loop, shared by the claim theorems below. -/

theorem pySplitChar_ne_nil (sep : Char) (l : List Char) : pySplitChar sep l ≠ [] := by
  cases l with
  | nil => simp [pySplitChar]
  | cons c rest =>
    simp only [pySplitChar]
    cases pySplitChar sep rest with
    | nil => simp
    | cons h t =>
      by_cases hc : c = sep <;> simp [hc]

theorem pySplitChar_length (sep : Char) (l : List Char) :
    (pySplitChar sep l).length = l.count sep + 1 := by
  induction l with
  | nil => simp [pySplitChar]
  | cons c rest ih =>
    simp only [pySplitChar]
    cases hr : pySplitChar sep rest with
    | nil => exact absurd hr (pySplitChar_ne_nil sep rest)
    | cons h t =>
      rw [hr] at ih
      by_cases hc : c = sep
      · subst hc
        simp only [if_pos rfl, List.length_cons, List.count_cons]
        simp only [List.length_cons] at ih
        simp
        omega
      · have hb : (c == sep) = false := by simp [hc]
        simp only [if_neg hc, List.length_cons, List.count_cons, hb]
        simp only [List.length_cons] at ih
        simp
        omega

theorem pySplit1Char_length_of_mem (sep : Char) (l : List Char) (h : sep ∈ l) :
    (pySplit1Char sep l).length = 2 := by
  induction l with
  | nil => cases h
  | cons c rest ih =>
    simp only [pySplit1Char]
    by_cases hc : c = sep
    · simp [hc]
    · have hm : sep ∈ rest := by
        cases h with
        | head => exact absurd rfl hc
        | tail _ h2 => exact h2
      have h2 := ih hm
      simp only [if_neg hc]
      cases hr : pySplit1Char sep rest with
      | nil => rw [hr] at h2; simp at h2
      | cons p t =>
        rw [hr] at h2
        simp only [List.length_cons] at h2 ⊢
        omega

theorem pySplitChar_of_not_mem (sep : Char) (l : List Char) (h : sep ∉ l) :
    pySplitChar sep l = [l] := by
  induction l with
  | nil => rfl
  | cons c rest ih =>
    have hc : c ≠ sep := fun e => h (e ▸ List.mem_cons_self c rest)
    have hr : sep ∉ rest := fun m => h (List.mem_cons_of_mem c m)
    simp only [pySplitChar, ih hr, if_neg hc]

theorem pySplitChar_append (sep : Char) (xs ys : List Char) (h : sep ∉ xs) :
    pySplitChar sep (xs ++ sep :: ys) = xs :: pySplitChar sep ys := by
  induction xs with
  | nil =>
    simp only [List.nil_append, pySplitChar]
    cases hr : pySplitChar sep ys with
    | nil => exact absurd hr (pySplitChar_ne_nil sep ys)
    | cons a t => simp
  | cons c rest ih =>
    have hc : c ≠ sep := fun e => h (e ▸ List.mem_cons_self c rest)
    have hr := ih (fun m => h (List.mem_cons_of_mem c m))
    show pySplitChar sep (c :: (rest ++ sep :: ys)) = (c :: rest) :: pySplitChar sep ys
    simp only [pySplitChar]
    rw [hr]
    simp [if_neg hc]

theorem attachTypeSplit_single_slash (m s : List Char) (hm : '/' ∉ m) (hs : '/' ∉ s) :
    attachTypeSplit (some (m ++ '/' :: s)) = .ok (m, s) := by
  have hmem : '/' ∈ m ++ '/' :: s := List.mem_append_right m (List.mem_cons_self _ _)
  simp only [attachTypeSplit, if_pos hmem, pySplitChar_append '/' m s hm,
    pySplitChar_of_not_mem '/' s hs]

theorem convertNamesLoop_append (xs ys : List AddrInput) :
    convertNamesLoop (xs ++ ys) = convertNamesLoop xs ++ convertNamesLoop ys := by
  induction xs with
  | nil => rfl
  | cons n rest ih =>
    simp only [List.cons_append, convertNamesLoop, ih]
    cases h : (extract n).is_valid <;> simp [h, ih]

/-! Claim theorems. -/

/-- C1: when both plaintext and html parts are supplied, the composed body
is a multipart/alternative container whose children are exactly the
plaintext part first and the html part second; when exactly one of the two
is supplied, the body is that single part with no alternative wrapper. -/
theorem composeBody_alternative_order {α : Type} (p h : α) :
    composeBody (some p) (some h) =
      some (.multipart "alternative" [.leaf p, .leaf h]) ∧
    composeBody (some p) (none : Option α) = some (.leaf p) ∧
    composeBody (none : Option α) (some h) = some (.leaf h) :=
  ⟨rfl, rfl, rfl⟩

/-- C2: with a non-empty list of inline parts and neither plaintext nor
html, the composition stage fails with the DanglingInline error, so an
exception is raised before `sendmail` and nothing reaches the transport;
when a body exists, the content is a multipart/related container with the
body attached first, then the inline parts in order. -/
theorem sendCompose_danglingInline {α : Type} (to_ cc bcc : List String)
    (reply_to : Option String) (from_addr subject : String)
    (plaintext_part html_part : Option α) (inline_parts attachment_parts : List α)
    (header : List (String × String)) (hip : inline_parts ≠ []) :
    (plaintext_part = none → html_part = none →
      sendCompose to_ cc bcc reply_to from_addr subject plaintext_part html_part
        inline_parts attachment_parts header = .error (.mailer .danglingInline)) ∧
    (∀ b, composeBody plaintext_part html_part = some b →
      composeContent (composeBody plaintext_part html_part) inline_parts =
        .ok (some (.multipart "related" (b :: inline_parts.map .leaf)))) := by
  constructor
  · intro hp hh
    subst hp; subst hh
    cases inline_parts with
    | nil => exact absurd rfl hip
    | cons a l => rfl
  · intro b hb
    rw [hb]
    cases inline_parts with
    | nil => exact absurd rfl hip
    | cons a l => rfl

/-- Witness for C2 at a concrete input: one inline part, no plaintext, no
html. -/
theorem sendCompose_danglingInline_witness :
    ([1] : List Nat) ≠ [] ∧
    sendCompose [] [] [] none "f@example.com" "" (none : Option Nat) none [1] [] [] =
      .error (.mailer .danglingInline) :=
  ⟨by decide,
   (sendCompose_danglingInline [] [] [] none "f@example.com" "" none none [1] [] []
      (by decide)).1 rfl rfl⟩

/-- C3 counterexample: with to/cc/bcc all empty and the body also empty,
composition fails with EmptyMessage rather than NoRecipients — the
empty-message check (line 591) runs before the recipient check (line
613), so the claimed independence from the body fails. -/
theorem sendCompose_empty_counterexample :
    sendCompose ([] : List String) [] [] none "from@example.com" "subject"
      (none : Option Nat) none [] [] [] = .error (.mailer .emptyMessage) ∧
    MailerError.emptyMessage ≠ MailerError.noRecipients :=
  ⟨rfl, by decide⟩

/-- C3 amended: whenever to/cc/bcc resolve to empty lists and the tree
composition itself produces an actual message, the composition stage
fails with NoRecipients regardless of the other headers; when the message
is empty as well, the EmptyMessage error is raised first instead. -/
theorem sendCompose_noRecipients {α : Type} (reply_to : Option String)
    (from_addr subject : String) (plaintext_part html_part : Option α)
    (inline_parts attachment_parts : List α) (header : List (String × String))
    (t : MimeTree α)
    (ht : composeTree plaintext_part html_part inline_parts attachment_parts =
      .ok (some t)) :
    sendCompose [] [] [] reply_to from_addr subject plaintext_part html_part
      inline_parts attachment_parts header = .error (.mailer .noRecipients) := by
  unfold sendCompose
  rw [ht]
  rfl

/-- Witness for C3 amended at a concrete input: a plaintext-only message
and no recipients at all. -/
theorem sendCompose_noRecipients_witness :
    composeTree (some 0) (none : Option Nat) [] [] = .ok (some (.leaf 0)) ∧
    sendCompose [] [] [] none "f@example.com" "s" (some 0) (none : Option Nat) [] [] [] =
      .error (.mailer .noRecipients) :=
  ⟨rfl, sendCompose_noRecipients none "f@example.com" "s" (some 0) none [] [] []
    (.leaf 0) rfl⟩

/-- C4 counterexample: a caller-supplied Subject header does not overwrite
the computed one — `message[k] = v` appends, so the final message carries
two Subject header fields and its header keys are not unique, with the
computed value still present before the caller's. -/
theorem sendCompose_header_counterexample :
    sendCompose ["a@example.com"] [] [] none "from@x" "Y" (some 0) (none : Option Nat)
        [] [] [("Subject", "X")] =
      .ok ⟨.leaf 0,
        [("To", "a@example.com"), ("From", "from@x"), ("Subject", "Y"), ("Subject", "X")],
        ["a@example.com"]⟩ ∧
    ¬ (["To", "From", "Subject", "Subject"] : List String).Nodup :=
  ⟨rfl, by decide⟩

/-- C4 amended: the caller-supplied header mapping is appended after the
computed headers rather than merged into them — on every successful
composition the final header list is exactly the computed headers
followed by all caller-supplied pairs, so a same-named computed header is
kept (and precedes the caller's), never overwritten. -/
theorem sendCompose_headers_append {α : Type} (to_ cc bcc : List String)
    (reply_to : Option String) (from_addr subject : String)
    (plaintext_part html_part : Option α) (inline_parts attachment_parts : List α)
    (header : List (String × String)) (o : Outgoing α)
    (h : sendCompose to_ cc bcc reply_to from_addr subject plaintext_part html_part
      inline_parts attachment_parts header = .ok o) :
    o.headers = computedHeaders to_ cc bcc reply_to from_addr subject ++ header ∧
    ∀ kv, kv ∈ header → kv ∈ o.headers := by
  unfold sendCompose at h
  cases hct : composeTree plaintext_part html_part inline_parts attachment_parts with
  | error e => rw [hct] at h; cases h
  | ok m =>
    rw [hct] at h
    cases m with
    | none => cases h
    | some t =>
      cases hr : to_ ++ cc ++ bcc with
      | nil => rw [hr] at h; cases h
      | cons r rs =>
        rw [hr] at h
        cases h
        exact ⟨rfl, fun kv hkv => List.mem_append_right _ hkv⟩

/-- Witness for C4 amended at a concrete input: one recipient, a custom
caller header, composition succeeding. -/
theorem sendCompose_headers_append_witness :
    (⟨MimeTree.leaf 0,
        computedHeaders ["r@example.com"] [] [] none "f@x" "S" ++ [("X-Custom", "1")],
        ["r@example.com"]⟩ : Outgoing Nat).headers =
      computedHeaders ["r@example.com"] [] [] none "f@x" "S" ++ [("X-Custom", "1")] :=
  (sendCompose_headers_append ["r@example.com"] [] [] none "f@x" "S" (some 0) none
    [] [] [("X-Custom", "1")] _ rfl).1

/-- C5 counterexample: for a url attachment with no caller-supplied type,
a name "foo.txt" whose extension-based guess is text/plain, and a
response-declared content type image/png, the code takes the response
type while the spec's precedence would take the name-based guess. -/
theorem urlAttachmentType_counterexample :
    urlAttachmentType none "image/png".data = .ok ("image".data, "png".data) ∧
    urlAttachmentTypeSpec
        (fun n => if n = "foo.txt".data then some "text/plain".data else none)
        none "foo.txt".data "image/png".data = .ok ("text".data, "plain".data) ∧
    "image".data ≠ "text".data :=
  ⟨rfl, rfl, by decide⟩

/-- C5 amended: the type precedence for a url-sourced attachment is the
explicit caller-supplied type, then the response-declared content type,
then the default application/octet-stream; a name-based guess is never
consulted.  In particular a well-formed type from either source is split
at its slash, and a response type with no slash falls back to the
default. -/
theorem urlAttachmentType_precedence (m s resp : List Char)
    (hm : '/' ∉ m) (hs : '/' ∉ s) :
    urlAttachmentType (some (m ++ '/' :: s)) resp = .ok (m, s) ∧
    urlAttachmentType none (m ++ '/' :: s) = .ok (m, s) ∧
    ('/' ∉ resp →
      urlAttachmentType none resp = .ok ("application".data, "octet-stream".data)) := by
  refine ⟨attachTypeSplit_single_slash m s hm hs,
          attachTypeSplit_single_slash m s hm hs, fun hr => ?_⟩
  simp [urlAttachmentType, attachTypeSplit, hr]

/-- Witness for C5 amended at concrete inputs: caller type text/plain
with response image/png, and a slash-free response type png. -/
theorem urlAttachmentType_precedence_witness :
    ('/' ∉ "text".data) ∧ ('/' ∉ "plain".data) ∧ ('/' ∉ "png".data) ∧
    urlAttachmentType (some ("text".data ++ '/' :: "plain".data)) "image/png".data =
      .ok ("text".data, "plain".data) ∧
    urlAttachmentType none "png".data =
      .ok ("application".data, "octet-stream".data) :=
  ⟨by decide, by decide, by decide,
   (urlAttachmentType_precedence "text".data "plain".data "image/png".data
      (by decide) (by decide)).1,
   (urlAttachmentType_precedence "text".data "plain".data "png".data
      (by decide) (by decide)).2.2 (by decide)⟩

/-- C6 counterexample: the claimed uniformity over attachments and inlines
fails on the inline side — the text payload "hi" is encoded and accepted
for an attachment but raises the typed invalid-content error for an
inline element instead of succeeding. -/
theorem resolveInlineData_counterexample :
    resolveInlineData (.str "hi") = .error (.mailer .invalidContentType) ∧
    resolveAttachmentData (.str "hi") = .ok (utf8Encode "hi") ∧
    (Except.error (.mailer .invalidContentType) : Except SendError (List Nat)) ≠
      .ok (utf8Encode "hi") :=
  ⟨rfl, rfl, fun h => Except.noConfusion h⟩

/-- C6 amended: for attachment data items a text payload is encoded to
UTF-8 bytes and resolution succeeds, bytes pass through, and any other
payload fails with the typed invalid-content error; inline data items
accept only bytes — a text payload fails with the same typed error
instead of being encoded. -/
theorem resolveData_cases (s : String) (b : List Nat) (tag : String) :
    resolveAttachmentData (.str s) = .ok (utf8Encode s) ∧
    resolveAttachmentData (.bytes b) = .ok b ∧
    resolveAttachmentData (.other tag) = .error (.mailer .invalidContentType) ∧
    resolveInlineData (.bytes b) = .ok b ∧
    resolveInlineData (.str s) = .error (.mailer .invalidContentType) ∧
    resolveInlineData (.other tag) = .error (.mailer .invalidContentType) :=
  ⟨rfl, rfl, rfl, rfl, rfl, rfl⟩

/-- C7: an item of a recipient collection whose extraction is invalid is
skipped — the conversion of the whole collection still succeeds (it never
raises) and its output is exactly the in-order serializations of the
valid items around it. -/
theorem convert_names_skips_invalid (xs ys : List AddrInput) (b : AddrInput)
    (hb : (extract b).is_valid = false) :
    convert_names (.listA (xs ++ b :: ys)) =
      .ok (some (convertNamesLoop xs ++ convertNamesLoop ys)) := by
  simp only [convert_names, convertNamesLoop_append]
  simp only [convertNamesLoop, hb]
  simp

/-- Witness for C7 at a concrete input: the empty string resolves to no
address and is dropped while its neighbours survive in order. -/
theorem convert_names_skips_invalid_witness :
    (extract (.strI "")).is_valid = false ∧
    convert_names (.listA [.strI "a@example.com", .strI "", .strI "b@example.com"]) =
      .ok (some ["a@example.com", "b@example.com"]) :=
  ⟨rfl,
   convert_names_skips_invalid [.strI "a@example.com"] [.strI "b@example.com"]
     (.strI "") rfl⟩

/-- C8: a supplied cid containing an `@` passes validation unchanged, and
after the part is built its headers carry Content-ID — exactly the
supplied cid enclosed in angle brackets, with no other normalization —
and Content-Disposition: inline; a missing cid or one lacking `@` raises
the typed InvalidContentId error. -/
theorem inlineCid_headers (c : String) (hs0 : List (String × String)) :
    ('@' ∈ c.data →
      inlineCid (some c) = .ok c ∧
      ("Content-ID", "<" ++ c ++ ">") ∈ addInlineHeaders hs0 c ∧
      ("Content-Disposition", "inline") ∈ addInlineHeaders hs0 c) ∧
    ('@' ∉ c.data → inlineCid (some c) = .error (.mailer .invalidContentId)) ∧
    inlineCid none = .error (.mailer .invalidContentId) := by
  refine ⟨fun h => ⟨?_, ?_, ?_⟩, fun h => ?_, rfl⟩
  · simp [inlineCid, h]
  · exact List.mem_append_right _ (by simp)
  · exact List.mem_append_right _ (by simp)
  · simp [inlineCid, h]

/-- Witness for C8 at the concrete cid of the spec's example. -/
theorem inlineCid_headers_witness :
    ('@' ∈ "logo@cloudflare.com".data) ∧
    inlineCid (some "logo@cloudflare.com") = .ok "logo@cloudflare.com" ∧
    ("Content-ID", "<logo@cloudflare.com>") ∈
      addInlineHeaders [] "logo@cloudflare.com" :=
  ⟨by decide,
   ((inlineCid_headers "logo@cloudflare.com" []).1 (by decide)).1,
   ((inlineCid_headers "logo@cloudflare.com" []).1 (by decide)).2.1⟩

/-- C9: deriving the From header with no explicit from_addr is only total
when a login user is set — with `_user` still None the membership test
`'@' in self._user` yields the untyped TypeError, which is never a typed
MailerException, while with any login user the derivation succeeds. -/
theorem deriveFromAddr_requires_user (host : String) :
    deriveFromAddr none none host = .error .typeError ∧
    (∀ e : MailerError, SendError.typeError ≠ SendError.mailer e) ∧
    (∀ u : String, ∃ a, deriveFromAddr none (some u) host = .ok a) := by
  refine ⟨rfl, fun e h => SendError.noConfusion h, fun u => ?_⟩
  by_cases h : '@' ∈ u.data
  · exact ⟨u, by simp [deriveFromAddr, h]⟩
  · exact ⟨u ++ "@" ++ host, by simp [deriveFromAddr, h]⟩

/-- C10: a resolved attachment type string containing two or more slashes
makes the two-target unpacking of `split('/')` fail with the untyped
ValueError — never a typed MailerException — while the inline file
variant's `split('/', 1)` handles the same string totally. -/
theorem typeSplit_two_slashes (t : List Char) (h : 2 ≤ t.count '/') :
    attachTypeSplit (some t) = .error .valueError ∧
    (∀ e : MailerError, SendError.valueError ≠ SendError.mailer e) ∧
    ∃ m s, inlineFileTypeSplit (some t) = .ok (m, s) := by
  have hmem : '/' ∈ t := by
    by_contra hm
    rw [List.count_eq_zero_of_not_mem hm] at h
    omega
  have hlen := pySplitChar_length '/' t
  refine ⟨?_, fun e h2 => SendError.noConfusion h2, ?_⟩
  · simp only [attachTypeSplit, if_pos hmem]
    cases hsp : pySplitChar '/' t with
    | nil => exact absurd hsp (pySplitChar_ne_nil '/' t)
    | cons a l1 =>
      cases l1 with
      | nil => rfl
      | cons b l2 =>
        cases l2 with
        | nil =>
          rw [hsp] at hlen
          simp only [List.length_cons, List.length_nil] at hlen
          omega
        | cons c l3 => rfl
  · have h1 := pySplit1Char_length_of_mem '/' t hmem
    simp only [inlineFileTypeSplit, if_pos hmem]
    cases hsp : pySplit1Char '/' t with
    | nil => rw [hsp] at h1; simp at h1
    | cons a l1 =>
      cases l1 with
      | nil => rw [hsp] at h1; simp at h1
      | cons b l2 =>
        cases l2 with
        | nil => exact ⟨a, b, rfl⟩
        | cons c l3 => rw [hsp] at h1; simp at h1

/-- Witness for C10 at the concrete type string a/b/c. -/
theorem typeSplit_two_slashes_witness :
    2 ≤ ("a/b/c".data.count '/') ∧
    attachTypeSplit (some "a/b/c".data) = .error .valueError ∧
    ∃ m s, inlineFileTypeSplit (some "a/b/c".data) = .ok (m, s) :=
  ⟨by decide,
   (typeSplit_two_slashes "a/b/c".data (by decide)).1,
   (typeSplit_two_slashes "a/b/c".data (by decide)).2.2⟩

end MailerPy
